import Mathlib

/-!
# Verification of the Juanababes reconciliation/merge engine

Shallow embedding of the merge/reconciliation core of the repository:

* `import_manual_exports.py` — CSV time parsing (`parse_datetime_with_offset`),
  numeric conversion (`safe_int`), the tiered matching strategy and the
  monotonic `MAX`-merge / synthetic-id creation of `import_csv`;
* `cleanup_duplicates.py` — `get_core_id` and `cleanup_duplicates`;
* `database.py` — the `db_connection` context manager.

Conventions of the embedding:

* SQLite `INTEGER` columns that may be `NULL` are `Option Int`; `COALESCE(x,0)`
  is `Option.getD x 0`; SQLite `MAX(a,b)` on non-`NULL` arguments is `max`.
* Python `datetime` values are the structure `DT`; `datetime` arithmetic
  (`timedelta`) goes through the absolute-seconds value `toAbs`/`ofAbs`
  (Howard Hinnant's civil-calendar algorithms, the same algorithms CPython's
  `datetime` is observationally equivalent to).
* Python strings are `String`; `s[:n]` / SQL `SUBSTR(s,1,n)` is `String.take`
  (both slice by code points).
* `pes` is a Python float `reactions*1.0 + comments*2.0 + shares*3.0`; on
  integer inputs below 2^51 that float is exact, so it is embedded as the
  integer `reactions + 2*comments + 3*shares`.
* `datetime.strptime(s, "%m/%d/%Y %H:%M")` is embedded as a total parser
  accepting 1–2 digit month/day/hour/minute and a 4 digit year with the same
  range validation CPython performs; `datetime.fromisoformat` is embedded on
  the canonical 19-character `YYYY-MM-DDTHH:MM:SS` form, the only form this
  pipeline produces.
-/

namespace Juanababes

/-! ## Calendar arithmetic (CPython `datetime` behaviour) -/

/-- Proleptic-Gregorian leap-year rule. -/
def isLeap (y : Int) : Bool := y % 4 = 0 && (y % 100 ≠ 0 || y % 400 = 0)

/-- Days in a month, as validated by `datetime.__new__`. -/
def daysInMonth (y m : Int) : Int :=
  if m = 2 then (if isLeap y then 29 else 28)
  else if m = 4 ∨ m = 6 ∨ m = 9 ∨ m = 11 then 30
  else 31

/-- A `datetime.datetime` value (microseconds are always zero in this pipeline). -/
structure DT where
  year : Int
  month : Int
  day : Int
  hour : Int
  minute : Int
  second : Int
deriving Repr, DecidableEq

/-- Field validity exactly as `datetime.datetime` enforces it. -/
def DT.valid (t : DT) : Prop :=
  1 ≤ t.year ∧ t.year ≤ 9999 ∧ 1 ≤ t.month ∧ t.month ≤ 12 ∧
  1 ≤ t.day ∧ t.day ≤ daysInMonth t.year t.month ∧
  0 ≤ t.hour ∧ t.hour ≤ 23 ∧ 0 ≤ t.minute ∧ t.minute ≤ 59 ∧
  0 ≤ t.second ∧ t.second ≤ 59

instance (t : DT) : Decidable t.valid := by unfold DT.valid; infer_instance

/-- Serial day number of a civil date (Hinnant's `days_from_civil`;
day 0 = 1970-01-01). -/
def daysFromCivil (y0 m d : Int) : Int :=
  let y : Int := if m ≤ 2 then y0 - 1 else y0
  let era : Int := y / 400
  let yoe : Int := y - era * 400
  let mp : Int := if m > 2 then m - 3 else m + 9
  let doy : Int := (153 * mp + 2) / 5 + d - 1
  let doe : Int := yoe * 365 + yoe / 4 - yoe / 100 + doy
  era * 146097 + doe - 719468

/-- Civil date of a serial day number (Hinnant's `civil_from_days`). -/
def civilFromDays (z0 : Int) : Int × Int × Int :=
  let z : Int := z0 + 719468
  let era : Int := z / 146097
  let doe : Int := z - era * 146097
  let yoe : Int := (doe - doe / 1460 + doe / 36524 - doe / 146096) / 365
  let y : Int := yoe + era * 400
  let doy : Int := doe - (365 * yoe + yoe / 4 - yoe / 100)
  let mp : Int := (5 * doy + 2) / 153
  let d : Int := doy - (153 * mp + 2) / 5 + 1
  let m : Int := if mp < 10 then mp + 3 else mp - 9
  (if m ≤ 2 then y + 1 else y, m, d)

/-- Seconds since the epoch of a `datetime` value. -/
def toAbs (t : DT) : Int :=
  daysFromCivil t.year t.month t.day * 86400 + t.hour * 3600 + t.minute * 60 + t.second

/-- The `datetime` value of an absolute second count. -/
def ofAbs (s : Int) : DT :=
  let days : Int := s / 86400
  let rem : Int := s % 86400
  let ymd := civilFromDays days
  { year := ymd.1, month := ymd.2.1, day := ymd.2.2,
    hour := rem / 3600, minute := rem % 3600 / 60, second := rem % 60 }

/-- `t + timedelta(seconds=k)`. -/
def addSeconds (t : DT) (k : Int) : DT := ofAbs (toAbs t + k)

/-- `t + timedelta(minutes=k)`. -/
def addMinutes (t : DT) (k : Int) : DT := addSeconds t (60 * k)

/-! ## String primitives shared by the embedding -/

/-- Python slicing `s[:n]` / SQL `SUBSTR(s,1,n)` (both count code points). -/
def strTake (s : String) (n : Nat) : String := String.mk (s.data.take n)

/-- A Python whitespace character (the ASCII set `str.strip()` removes). -/
def isPySpace (c : Char) : Bool :=
  c = ' ' || c = Char.ofNat 9 || c = Char.ofNat 10 || c = Char.ofNat 13 ||
    c = Char.ofNat 11 || c = Char.ofNat 12

/-- Python `s.strip()` (ASCII whitespace; this pipeline has no exotic spaces). -/
def pyStrip (s : String) : String :=
  String.mk (((s.data.dropWhile isPySpace).reverse.dropWhile isPySpace).reverse)

/-- Lower-case one character (ASCII, the range SQLite's `LOWER` folds and the
only range exercised by this pipeline's page names and titles). -/
def charLower (c : Char) : Char :=
  if 65 ≤ c.toNat ∧ c.toNat ≤ 90 then Char.ofNat (c.toNat + 32) else c

/-- `s.lower()` / SQL `LOWER(s)` (ASCII folding). -/
def pyLower (s : String) : String := String.mk (s.data.map charLower)

/-- Left-to-right non-overlapping replacement, with enough fuel to scan `l`. -/
def replaceGo (pat rep : List Char) : Nat → List Char → List Char
  | _, [] => []
  | 0, l => l
  | fuel + 1, c :: cs =>
    if (c :: cs).take pat.length = pat then
      rep ++ replaceGo pat rep fuel ((c :: cs).drop pat.length)
    else c :: replaceGo pat rep fuel cs

/-- Python `s.replace(pat, rep)` for a non-empty `pat` (the only use here is
`.replace('+0000', '')`). -/
def pyReplace (s pat rep : String) : String :=
  if pat = "" then s
  else String.mk (replaceGo pat.data rep.data s.data.length s.data)

/-! ## Formatting and parsing of timestamps -/

/-- The digit character of `n % 10`. -/
def digitChar (n : Nat) : Char := Char.ofNat (48 + n % 10)

/-- Two-digit zero-padded decimal (for valid `datetime` fields). -/
def pad2 (n : Int) : List Char := [digitChar (n.toNat / 10), digitChar n.toNat]

/-- Four-digit zero-padded decimal (for valid `datetime` years). -/
def pad4 (n : Int) : List Char :=
  [digitChar (n.toNat / 1000), digitChar (n.toNat / 100), digitChar (n.toNat / 10),
   digitChar n.toNat]

/-- Character list of `datetime.isoformat()` (microseconds zero, no tzinfo). -/
def isoChars (t : DT) : List Char :=
  pad4 t.year ++ ['-'] ++ pad2 t.month ++ ['-'] ++ pad2 t.day ++ ['T'] ++
    pad2 t.hour ++ [':'] ++ pad2 t.minute ++ [':'] ++ pad2 t.second

/-- `datetime.isoformat()`. -/
def isoformat (t : DT) : String := String.mk (isoChars t)

/-- Numeric value of a list of decimal digit characters. -/
def digitsVal (l : List Char) : Nat := l.foldl (fun a c => 10 * a + (c.toNat - 48)) 0

/-- `datetime.fromisoformat` on the canonical 19-character
`YYYY-MM-DDTHH:MM:SS` form (the only form this pipeline produces);
range validation as in `datetime.__new__`. -/
def fromisoChars : List Char → Option DT
  | [y1, y2, y3, y4, c1, m1, m2, c2, d1, d2, c3, h1, h2, c4, n1, n2, c5, s1, s2] =>
    if (c1 = '-' && c2 = '-' && c3 = 'T' && c4 = ':' && c5 = ':' &&
        [y1, y2, y3, y4, m1, m2, d1, d2, h1, h2, n1, n2, s1, s2].all Char.isDigit) then
      let t : DT :=
        { year := digitsVal [y1, y2, y3, y4], month := digitsVal [m1, m2],
          day := digitsVal [d1, d2], hour := digitsVal [h1, h2],
          minute := digitsVal [n1, n2], second := digitsVal [s1, s2] }
      if t.valid then some t else none
    else none
  | _ => none

/-- `datetime.fromisoformat` on strings. -/
def fromisoformat (s : String) : Option DT := fromisoChars s.data

/-- Value of at most `cap` leading digits together with count and rest
(most-significant first). -/
def readNum (cap : Nat) (l : List Char) : Nat × Nat × List Char :=
  let ds := (l.takeWhile Char.isDigit).take cap
  (digitsVal ds, ds.length, l.drop ds.length)

/-- `datetime.strptime(s, "%m/%d/%Y %H:%M")`: 1–2 digit month/day/hour/minute,
exactly 4 digit year, the literal spaces matching a whitespace run, full-match
required, and the field validation `datetime.__new__` performs. -/
def strptimeMDYHM (s : String) : Option DT :=
  let l := s.data
  let (mo, moLen, l1) := readNum 2 l
  if moLen = 0 then none else
    match l1 with
    | c :: l2 =>
      if c ≠ '/' then none else
      let (d, dLen, l3) := readNum 2 l2
      if dLen = 0 then none else
      match l3 with
      | c2 :: l4 =>
        if c2 ≠ '/' then none else
        let (y, yLen, l5) := readNum 4 l4
        if yLen ≠ 4 then none else
        let l6 := l5.dropWhile (fun ch => ch = ' ')
        if l6.length = l5.length then none else
        let (h, hLen, l7) := readNum 2 l6
        if hLen = 0 then none else
        match l7 with
        | c3 :: l8 =>
          if c3 ≠ ':' then none else
          let (mi, miLen, l9) := readNum 2 l8
          if miLen = 0 then none else
          if l9 ≠ [] then none else
          let t : DT := { year := y, month := mo, day := d, hour := h,
                          minute := mi, second := 0 }
          if t.valid then some t else none
        | [] => none
      | [] => none
    | [] => none

/-! ## `parse_datetime_with_offset` (import_manual_exports.py lines 29–42) -/

/-- `parse_datetime_with_offset`: empty input gives `None`; a parsable
`%m/%d/%Y %H:%M` timestamp is shifted by +8 hours and returned as
`isoformat`; an unparsable non-empty string is returned **unchanged**
(the bare `except: return dt_str`). -/
def parse_datetime_with_offset (dt_str : String) : Option String :=
  if dt_str = "" then none
  else
    match strptimeMDYHM (pyStrip dt_str) with
    | some t => some (isoformat (addSeconds t (8 * 3600)))
    | none => some dt_str

/-! ## `safe_int` (import_manual_exports.py lines 45–52)

`int(float(val))`: parse a decimal literal (optional sign, digits with an
optional fraction, optional exponent) and truncate toward zero.  The embedding
parses the decimal exactly; `float`'s final binary rounding (a relative error
below 2⁻⁵²) and its underscore/inf/nan literal forms are not modelled — no
claim depends on them.  A literal beyond the float overflow threshold makes
`int(float(..))` raise `OverflowError`, which `safe_int` turns into 0; the
embedding uses the decimal bound 10³¹⁰ for that threshold. -/

/-- Decomposed decimal literal: sign, mantissa digits as one number,
number of fraction digits, exponent. -/
structure DecParts where
  neg : Bool
  mant : Nat
  fracLen : Nat
  ex : Int
deriving Repr, DecidableEq

/-- Parse the body of a Python float literal (after `strip`). -/
def parseFloatParts (s : String) : Option DecParts :=
  let l := (pyStrip s).data
  let (neg, l1) :=
    match l with
    | c :: rest => if c = '-' then (true, rest) else if c = '+' then (false, rest) else (false, l)
    | [] => (false, l)
  let intDigits := l1.takeWhile Char.isDigit
  let l2 := l1.drop intDigits.length
  let (fracDigits, l3) :=
    match l2 with
    | c :: rest =>
      if c = '.' then (rest.takeWhile Char.isDigit, rest.drop (rest.takeWhile Char.isDigit).length)
      else ([], l2)
    | [] => ([], l2)
  if intDigits.length + fracDigits.length = 0 then none
  else
    match l3 with
    | [] => some ⟨neg, digitsVal (intDigits ++ fracDigits), fracDigits.length, 0⟩
    | c :: rest =>
      if c = 'e' ∨ c = 'E' then
        let (eneg, r1) :=
          match rest with
          | d :: r => if d = '-' then (true, r) else if d = '+' then (false, r) else (false, rest)
          | [] => (false, rest)
        let eDigits := r1.takeWhile Char.isDigit
        if eDigits.length = 0 ∨ r1.drop eDigits.length ≠ [] then none
        else
          let e : Int := if eneg then -(digitsVal eDigits : Int) else (digitsVal eDigits : Int)
          some ⟨neg, digitsVal (intDigits ++ fracDigits), fracDigits.length, e⟩
      else none

/-- Truncate the decimal `± mant · 10^(ex − fracLen)` toward zero, as
`int(float(..))` does; magnitudes at or past the float overflow threshold
(`10^309` here, against the true `≈1.8·10^308`) give 0: `float` returns
`inf`, `int(inf)` raises `OverflowError`, the bare `except` returns 0. -/
def decTrunc (p : DecParts) : Int :=
  let e : Int := p.ex - (p.fracLen : Int)
  let mag : Nat :=
    if 0 ≤ e then p.mant * 10 ^ e.toNat else p.mant / 10 ^ (-e).toNat
  if 10 ^ 309 ≤ mag then 0
  else if p.neg then -(mag : Int) else (mag : Int)

/-- `safe_int`: empty or unparsable gives 0, otherwise `int(float(val))`.
Negative inputs pass through unchanged — there is no clamping. -/
def safe_int (val : String) : Int :=
  if val = "" then 0
  else
    match parseFloatParts val with
    | none => 0
    | some p => decTrunc p

/-- `safe_int(row.get(k, 0))`: a missing column gives `0`
(`not 0` is true in Python), otherwise the string is converted. -/
def safeIntCell (cell : Option String) : Int :=
  match cell with
  | none => 0
  | some s => safe_int s

/-! ## MD5 (`hashlib.md5`, RFC 1321) over `Nat` with explicit `% 2^32` -/

/-- 2³². -/
def M32 : Nat := 4294967296

/-- 32-bit left rotation (operands below 2³²). -/
def rotl32 (x c : Nat) : Nat := (x * 2 ^ c % M32 + x / 2 ^ (32 - c)) % M32

/-- Round function F. -/
def md5F (b c d : Nat) : Nat := Nat.lor (Nat.land b c) (Nat.land (4294967295 - b) d)

/-- Round function G. -/
def md5G (b c d : Nat) : Nat := Nat.lor (Nat.land b d) (Nat.land c (4294967295 - d))

/-- Round function H. -/
def md5H (b c d : Nat) : Nat := Nat.xor b (Nat.xor c d)

/-- Round function I. -/
def md5I (b c d : Nat) : Nat := Nat.xor c (Nat.lor b (4294967295 - d))

/-- The 64 sine-derived constants of RFC 1321. -/
def md5K : List Nat :=
  [0xd76aa478, 0xe8c7b756, 0x242070db, 0xc1bdceee,
   0xf57c0faf, 0x4787c62a, 0xa8304613, 0xfd469501,
   0x698098d8, 0x8b44f7af, 0xffff5bb1, 0x895cd7be,
   0x6b901122, 0xfd987193, 0xa679438e, 0x49b40821,
   0xf61e2562, 0xc040b340, 0x265e5a51, 0xe9b6c7aa,
   0xd62f105d, 0x02441453, 0xd8a1e681, 0xe7d3fbc8,
   0x21e1cde6, 0xc33707d6, 0xf4d50d87, 0x455a14ed,
   0xa9e3e905, 0xfcefa3f8, 0x676f02d9, 0x8d2a4c8a,
   0xfffa3942, 0x8771f681, 0x6d9d6122, 0xfde5380c,
   0xa4beea44, 0x4bdecfa9, 0xf6bb4b60, 0xbebfbc70,
   0x289b7ec6, 0xeaa127fa, 0xd4ef3085, 0x04881d05,
   0xd9d4d039, 0xe6db99e5, 0x1fa27cf8, 0xc4ac5665,
   0xf4292244, 0x432aff97, 0xab9423a7, 0xfc93a039,
   0x655b59c3, 0x8f0ccc92, 0xffeff47d, 0x85845dd1,
   0x6fa87e4f, 0xfe2ce6e0, 0xa3014314, 0x4e0811a1,
   0xf7537e82, 0xbd3af235, 0x2ad7d2bb, 0xeb86d391]

/-- The per-step rotation amounts of RFC 1321. -/
def md5S : List Nat :=
  [7, 12, 17, 22, 7, 12, 17, 22, 7, 12, 17, 22, 7, 12, 17, 22,
   5, 9, 14, 20, 5, 9, 14, 20, 5, 9, 14, 20, 5, 9, 14, 20,
   4, 11, 16, 23, 4, 11, 16, 23, 4, 11, 16, 23, 4, 11, 16, 23,
   6, 10, 15, 21, 6, 10, 15, 21, 6, 10, 15, 21, 6, 10, 15, 21]

/-- The running MD5 state. -/
structure MDState where
  a : Nat
  b : Nat
  c : Nat
  d : Nat
deriving Repr, DecidableEq

/-- The MD5 initialization vector. -/
def md5Init : MDState := ⟨0x67452301, 0xefcdab89, 0x98badcfe, 0x10325476⟩

/-- One of the 64 steps of a chunk, on the 16 message words `w`. -/
def md5Step (w : List Nat) (st : MDState) (i : Nat) : MDState :=
  let fg : Nat × Nat :=
    if i < 16 then (md5F st.b st.c st.d, i)
    else if i < 32 then (md5G st.b st.c st.d, (5 * i + 1) % 16)
    else if i < 48 then (md5H st.b st.c st.d, (3 * i + 5) % 16)
    else (md5I st.b st.c st.d, 7 * i % 16)
  let tmp := (st.a + fg.1 + md5K.getD i 0 + w.getD fg.2 0) % M32
  ⟨st.d, (st.b + rotl32 tmp (md5S.getD i 0)) % M32, st.b, st.c⟩

/-- Process one 512-bit chunk given as 16 little-endian words. -/
def md5Chunk (st : MDState) (w : List Nat) : MDState :=
  let r := (List.range 64).foldl (md5Step w) st
  ⟨(st.a + r.a) % M32, (st.b + r.b) % M32, (st.c + r.c) % M32, (st.d + r.d) % M32⟩

/-- Little-endian bytes of a 32-bit word. -/
def toLE4 (x : Nat) : List Nat :=
  [x % 256, x / 256 % 256, x / 65536 % 256, x / 16777216 % 256]

/-- Little-endian bytes of the 64-bit bit-length field. -/
def toLE8 (x : Nat) : List Nat :=
  [x % 256, x / 256 % 256, x / 65536 % 256, x / 16777216 % 256,
   x / 4294967296 % 256, x / 1099511627776 % 256,
   x / 281474976710656 % 256, x / 72057594037927936 % 256]

/-- MD5 padding: `0x80`, zeros to 56 mod 64, 64-bit little-endian bit length. -/
def md5Pad (msg : List Nat) : List Nat :=
  msg ++ [128] ++ List.replicate ((119 - msg.length % 64) % 64) 0 ++
    toLE8 (8 * msg.length % 18446744073709551616)

/-- Group a byte list into 16 little-endian 32-bit words. -/
def bytesToWords : List Nat → List Nat
  | b0 :: b1 :: b2 :: b3 :: rest =>
    (b0 + 256 * b1 + 65536 * b2 + 16777216 * b3) :: bytesToWords rest
  | _ => []

/-- Take `n` successive 64-byte chunks from a byte list. -/
def chunksGo : Nat → List Nat → List (List Nat)
  | 0, _ => []
  | n + 1, l => l.take 64 :: chunksGo n (l.drop 64)

/-- Split a byte list into its 64-byte chunks (the input length is a
multiple of 64 after padding; a short tail is dropped). -/
def chunks64 (l : List Nat) : List (List Nat) := chunksGo (l.length / 64) l

/-- The four-word MD5 state of a byte message. -/
def md5State (msg : List Nat) : MDState :=
  (chunks64 (md5Pad msg)).foldl (fun st ch => md5Chunk st (bytesToWords ch)) md5Init

/-- The 16-byte MD5 digest of a byte message. -/
def md5Bytes (msg : List Nat) : List Nat :=
  let st := md5State msg
  toLE4 st.a ++ toLE4 st.b ++ toLE4 st.c ++ toLE4 st.d

/-- UTF-8 bytes of one character (`str.encode()`). -/
def charUtf8 (c : Char) : List Nat :=
  let n := c.toNat
  if n < 128 then [n]
  else if n < 2048 then [192 + n / 64, 128 + n % 64]
  else if n < 65536 then [224 + n / 4096, 128 + n / 64 % 64, 128 + n % 64]
  else [240 + n / 262144, 128 + n / 4096 % 64, 128 + n / 64 % 64, 128 + n % 64]

/-- UTF-8 bytes of a string (`str.encode()`). -/
def strBytes (s : String) : List Nat := (s.data.map charUtf8).flatten

/-- Lower-case hex digit character. -/
def hexDigitChar (n : Nat) : Char :=
  if n < 10 then Char.ofNat (48 + n) else Char.ofNat (87 + n % 16)

/-- Two lower-case hex characters of one byte. -/
def hexByte (b : Nat) : List Char := [hexDigitChar (b / 16 % 16), hexDigitChar (b % 16)]

/-- `hashlib.md5(s.encode()).hexdigest()`. -/
def md5Hex (s : String) : String := String.mk ((md5Bytes (strBytes s)).map hexByte).flatten

/-! ## Synthetic id generation (import_manual_exports.py lines 209–211) -/

/-- `id_seed = f"{page_id}_{publish_time}"`;
`synthetic_id = f"csv_{hashlib.md5(id_seed.encode()).hexdigest()[:12]}"`. -/
def synthesize (page_id publish_time : String) : String :=
  let id_seed := page_id ++ "_" ++ publish_time
  "csv_" ++ strTake (md5Hex id_seed) 12

/-! ## The canonical store (the `posts` and `pages` tables) -/

/-- A row of the `posts` table (the columns `import_manual_exports.py` and
`cleanup_duplicates.py` touch, plus the identity columns of the frame claim;
nullable metric columns are `Option Int`). -/
structure Post where
  post_id : String
  page_id : String
  title : String
  permalink : Option String
  post_type : String
  publish_time : String
  views_count : Option Int
  reach_count : Option Int
  reactions_total : Option Int
  comments_count : Option Int
  shares_count : Option Int
  total_engagement : Option Int
  pes : Option Int
  fetched_at : String
deriving Repr, DecidableEq

/-- The converted metric values of one CSV row (after `safe_int`). -/
structure Metrics where
  views : Int
  reach : Int
  reactions : Int
  comments : Int
  shares : Int
deriving Repr, DecidableEq

/-- The canonical store: the `pages` table as `(page_id, page_name)` rows and
the `posts` table in rowid order. -/
structure Store where
  pages : List (String × String)
  posts : List Post
deriving Repr, DecidableEq

/-! ## The monotonic merge (the `UPDATE … MAX(COALESCE(…,0), ?)` statement,
import_manual_exports.py lines 194–205 and 218–231) -/

/-- The matched-record update: every metric column becomes
`MAX(COALESCE(old, 0), incoming)`; `total_engagement` is maxed against the
*incoming* `reactions + comments + shares` and `pes` against the incoming
`reactions + 2*comments + 3*shares`; no other column is written. -/
def mergeUpdate (p : Post) (m : Metrics) : Post :=
  { p with
    views_count := some (max (p.views_count.getD 0) m.views)
    reach_count := some (max (p.reach_count.getD 0) m.reach)
    reactions_total := some (max (p.reactions_total.getD 0) m.reactions)
    comments_count := some (max (p.comments_count.getD 0) m.comments)
    shares_count := some (max (p.shares_count.getD 0) m.shares)
    total_engagement := some (max (p.total_engagement.getD 0)
      (m.reactions + m.comments + m.shares))
    pes := some (max (p.pes.getD 0) (m.reactions + 2 * m.comments + 3 * m.shares)) }

/-- The per-row effect of `UPDATE … WHERE post_id = ?` on one row. -/
def updOne (pid : String) (m : Metrics) (q : Post) : Post :=
  if q.post_id == pid then mergeUpdate q m else q

/-- `UPDATE posts SET … WHERE post_id = ?`: every row carrying the id. -/
def updateWhere (posts : List Post) (pid : String) (m : Metrics) : List Post :=
  posts.map (updOne pid m)

/-- Python's substring containment `pat in hay`. -/
def strIn (pat hay : String) : Bool :=
  (List.range (hay.data.length + 1)).any
    (fun i => ((hay.data.drop i).take pat.data.length) == pat.data)

/-! ## The tiered matching strategy (import_manual_exports.py lines 113–187) -/

/-- Tier 1: `page_id = ? AND SUBSTR(publish_time,1,16) = ? LIMIT 1`. -/
def matchByMinute (posts : List Post) (pid timeKey : String) : Option Post :=
  posts.find? (fun p => p.page_id == pid && strTake p.publish_time 16 == timeKey)

/-- The fuzzy minute offsets, in the order the code tries them. -/
def fuzzyOffsets : List Int :=
  [-1, 1, -2, 2, -3, 3, -4, 4, -5, 5, -6, 6, -7, 7, -8, 8, -9, 9, -10, 10]

/-- Tier 2: fuzzy ±10-minute match — first offset with a hit wins;
an unparsable `publish_time` silently skips the tier (`except: pass`). -/
def matchFuzzy (posts : List Post) (pid pt : String) : Option Post :=
  match fromisoformat pt with
  | none => none
  | some base =>
    fuzzyOffsets.findSome? (fun off =>
      matchByMinute posts pid (strTake (isoformat (addMinutes base off)) 16))

/-- `LOWER(SUBSTR(title,1,100)) = LOWER(?)`. -/
def titleEq (p : Post) (title : String) : Bool :=
  pyLower (strTake p.title 100) == pyLower title

/-- Tier 3: title match on the same date, only with a non-empty title. -/
def matchTitleSameDate (posts : List Post) (pid pt title : String) : Option Post :=
  if title == "" then none
  else posts.find? (fun p =>
    p.page_id == pid && strTake p.publish_time 10 == strTake pt 10 && titleEq p title)

/-- Tier 4: title match on any date, only when `len(title) > 20`. -/
def matchTitleAnyDate (posts : List Post) (pid title : String) : Option Post :=
  if title == "" || !(decide (title.length > 20)) then none
  else posts.find? (fun p => p.page_id == pid && titleEq p title)

/-- One iteration of the closest-candidate loop: an unparsable candidate time
is skipped; a candidate strictly improving the best difference replaces it. -/
def closestStep (base : DT) (best : Option Post × Int) (cand : Post) : Option Post × Int :=
  match fromisoformat (pyReplace cand.publish_time "+0000" "") with
  | none => best
  | some ct =>
    if |toAbs ct - toAbs base| < best.2 then (some cand, |toAbs ct - toAbs base|)
    else best

/-- The tier-5 candidate filter: same page, same date, and the post does not
appear among the `views_count > 0` rows. -/
def closestCand (posts : List Post) (pid datePart : String) (p : Post) : Bool :=
  p.page_id == pid && strTake p.publish_time 10 == datePart &&
    !(posts.any (fun q => decide (q.views_count.getD 0 > 0) && q.post_id == p.post_id))

/-- Tier 5: closest time on the same date within a strict 3600-second window,
considering only posts that do not appear among `views_count > 0` rows;
the first candidate (rowid order) strictly improving the best difference wins. -/
def matchClosest (posts : List Post) (pid pt : String) : Option Post :=
  match fromisoformat pt with
  | none => none
  | some base =>
    ((posts.filter (closestCand posts pid (strTake pt 10))).foldl
      (closestStep base) ((none : Option Post), (3600 : Int))).1

/-- The full resolver: tiers in order, first hit wins; the hit is tagged with
its tier number (1–5). -/
def resolveMatch (posts : List Post) (pid pt title : String) : Option (Post × Nat) :=
  match matchByMinute posts pid (strTake pt 16) with
  | some p => some (p, 1)
  | none =>
  match matchFuzzy posts pid pt with
  | some p => some (p, 2)
  | none =>
  match matchTitleSameDate posts pid pt title with
  | some p => some (p, 3)
  | none =>
  match matchTitleAnyDate posts pid title with
  | some p => some (p, 4)
  | none =>
  match matchClosest posts pid pt with
  | some p => some (p, 5)
  | none => none

/-! ## Creation of a post from CSV data (import_manual_exports.py lines 207–249) -/

/-- The `INSERT INTO posts` of the create branch: metrics stored as given
(no clamping), `total_engagement` and `pes` derived from the incoming record,
`"+0000"` appended to the publish time unless already contained, no permalink. -/
def newPostFromCsv (pid pt title ptype : String) (m : Metrics) (now : String) : Post :=
  { post_id := synthesize pid pt
    page_id := pid
    title := title
    permalink := none
    post_type := ptype
    publish_time := if strIn "+0000" pt then pt else pt ++ "+0000"
    views_count := some m.views
    reach_count := some m.reach
    reactions_total := some m.reactions
    comments_count := some m.comments
    shares_count := some m.shares
    total_engagement := some (m.reactions + m.comments + m.shares)
    pes := some (m.reactions + 2 * m.comments + 3 * m.shares)
    fetched_at := now }

/-- Resolution and merge of one already-normalized record: a tier hit updates
the matched post; otherwise the synthetic id is derived and either updated
(when a post already carries it) or inserted.  The boolean reports whether a
new post was created. -/
def processParsed (posts : List Post) (pid pt title ptype : String) (m : Metrics)
    (now : String) : List Post × Bool :=
  match resolveMatch posts pid pt title with
  | some pr => (updateWhere posts pr.1.post_id m, false)
  | none =>
    let sid := synthesize pid pt
    if posts.any (fun q => q.post_id == sid) then (updateWhere posts sid m, false)
    else (posts ++ [newPostFromCsv pid pt title ptype m now], true)

/-! ## The page lookup (import_manual_exports.py lines 66–95) -/

/-- `page_lookup[name.lower()] = page_id`, built in row order: keys keep the
position of their first insertion, a later duplicate key overwrites the value. -/
def buildPageLookup (pages : List (String × String)) : List (String × String) :=
  pages.foldl (fun acc pr =>
    let key := pyLower pr.2
    if acc.any (fun kv => kv.1 == key) then
      acc.map (fun kv => if kv.1 == key then (key, pr.1) else kv)
    else acc ++ [(key, pr.1)]) []

/-- `page_lookup.get(name)`. -/
def lookupPage (lookup : List (String × String)) (nameLower : String) : Option String :=
  (lookup.find? (fun kv => kv.1 == nameLower)).map (fun kv => kv.2)

/-- The fallback loop: first lookup entry whose space-stripped key contains or
is contained in the space-stripped CSV name. -/
def fuzzyPage (lookup : List (String × String)) (nameLower : String) : Option String :=
  let csvStripped := pyReplace nameLower " " ""
  (lookup.find? (fun kv =>
      let dbStripped := pyReplace kv.1 " " ""
      strIn csvStripped dbStripped || strIn dbStripped csvStripped)).map (fun kv => kv.2)

/-- Page resolution of one row: exact lowered-name lookup, then the fuzzy
containment fallback; a missing or falsy (empty) page id skips the row. -/
def resolvePageId (lookup : List (String × String)) (pageName : String) : Option String :=
  let d := (lookupPage lookup (pyLower pageName)).getD ""
  let pid := if d == "" then (fuzzyPage lookup (pyLower pageName)).getD d else d
  if pid == "" then none else some pid

/-! ## One loop iteration and the whole import (import_manual_exports.py lines 75–249) -/

/-- One raw CSV row; `none` is a missing column (`row.get` default applies). -/
structure CsvRow where
  pageName : Option String
  postId : Option String
  publishTime : Option String
  title : Option String
  ptype : Option String
  views : Option String
  reach : Option String
  reactions : Option String
  comments : Option String
  shares : Option String
deriving Repr, DecidableEq

/-- The `updated`/`created`/`skipped` counters of one `import_csv` run. -/
structure Counters where
  updated : Nat
  created : Nat
  skipped : Nat
deriving Repr, DecidableEq

/-- The normalized form of one accepted row: resolved page id, offset-adjusted
publish time, truncated/stripped title, post type, converted metrics. -/
structure NormRow where
  pid : String
  pt : String
  title : String
  ptypeN : String
  m : Metrics
deriving Repr, DecidableEq

/-- The per-row normalization of `import_csv`: missing post id or page name,
unresolvable page, or an empty publish time skip the row (`none`); everything
else produces the normalized record the matching tiers consume.  Only the
`pages` table of the store is read. -/
def normalizeRow (pages : List (String × String)) (row : CsvRow) : Option NormRow :=
  let pageName := row.pageName.getD ""
  let postIdRaw := row.postId.getD ""
  if postIdRaw == "" || pageName == "" then none
  else
    match resolvePageId (buildPageLookup pages) pageName with
    | none => none
    | some pid =>
      match parse_datetime_with_offset (row.publishTime.getD "") with
      | none => none
      | some pt =>
        some { pid := pid, pt := pt,
               title := pyStrip (strTake (row.title.getD "") 100),
               ptypeN := row.ptype.getD "Videos",
               m := { views := safeIntCell row.views, reach := safeIntCell row.reach,
                      reactions := safeIntCell row.reactions,
                      comments := safeIntCell row.comments,
                      shares := safeIntCell row.shares } }

/-- One iteration of the row loop of `import_csv`. -/
def importRowStep (now : String) (st : Store × Counters) (row : CsvRow) :
    Store × Counters :=
  let s := st.1
  let c := st.2
  match normalizeRow s.pages row with
  | none => (s, { c with skipped := c.skipped + 1 })
  | some nr =>
    let r := processParsed s.posts nr.pid nr.pt nr.title nr.ptypeN nr.m now
    ({ s with posts := r.1 },
     if r.2 then { c with created := c.created + 1 }
     else { c with updated := c.updated + 1 })

/-- `import_csv` over the parsed rows of one file. -/
def import_csv (s : Store) (rows : List CsvRow) (now : String) : Store × Counters :=
  rows.foldl (importRowStep now) (s, ⟨0, 0, 0⟩)

/-! ## `cleanup_duplicates.py` -/

/-- `get_core_id`: `post_id.split('_')[-1]` — the part after the last
underscore, the whole id when there is none. -/
def get_core_id (post_id : String) : String :=
  String.mk ((post_id.data.reverse.takeWhile (fun c => c ≠ Char.ofNat 95)).reverse)

/-- `COALESCE(total_engagement, 0)`. -/
def engOf (p : Post) : Int := p.total_engagement.getD 0

/-- The dedup keys `(page_id, core_id)` in first-appearance order. -/
def groupKeys (posts : List Post) : List (String × String) :=
  posts.foldl (fun acc p =>
    let k := (p.page_id, get_core_id p.post_id)
    if acc.any (fun q => q == k) then acc else acc ++ [k]) []

/-- The members of one dedup group, in rowid order. -/
def groupMembers (posts : List Post) (k : String × String) : List Post :=
  posts.filter (fun p => p.page_id == k.1 && get_core_id p.post_id == k.2)

/-- Stable descending insertion: place `p` before the first member whose
engagement does not exceed `p`'s. -/
def insertDesc (p : Post) : List Post → List Post
  | [] => [p]
  | q :: qs => if engOf q ≤ engOf p then p :: q :: qs else q :: insertDesc p qs

/-- Python's `sorted(items, key=eng, reverse=True)`: a *stable* descending
sort (embedded as stable insertion sort, extensionally Python's stable sort). -/
def sortByEngDesc : List Post → List Post
  | [] => []
  | p :: ps => insertDesc p (sortByEngDesc ps)

/-- The post ids deleted by `cleanup_duplicates`: in every group with more
than one member, everything after the head of the engagement-descending
stable sort. -/
def deletedIds (posts : List Post) : List String :=
  ((groupKeys posts).map (fun k =>
    let g := groupMembers posts k
    if g.length > 1 then ((sortByEngDesc g).drop 1).map (fun p => p.post_id)
    else [])).flatten

/-- `cleanup_duplicates`: delete every row whose id was marked
(`DELETE FROM posts WHERE post_id = ?` removes all rows with that id). -/
def cleanup_duplicates (posts : List Post) : List Post :=
  let dels := deletedIds posts
  posts.filter (fun p => !(dels.any (fun i => i == p.post_id)))

/-! ## `db_connection` (database.py lines 76–93)

The managed block is a function from the committed state to `Except`: an
uncommitted transaction is the pending value the block computes; `commit`
publishes it, `rollback` discards it.  The context manager commits exactly on
a clean exit and rolls back (re-raising) on an exception. -/

/-- The `db_connection` context manager: run the block on the committed state;
commit its result on success, keep the original state and surface the error
on an exception. -/
def db_connection {α ε : Type} (block : α → Except ε α) (committed : α) :
    α × Option ε :=
  match block committed with
  | Except.ok s2 => (s2, none)
  | Except.error e => (committed, some e)

/-! ## Derived decorations used by the claims -/

/-- A sequence of matched-record merges applied to one post. -/
def mergeSeq (p : Post) (ms : List Metrics) : Post := ms.foldl mergeUpdate p

/-- The non-metric columns of a post (everything the matched-record
`UPDATE` does not mention). -/
def identityCols (p : Post) :
    String × String × String × Option String × String × String × String :=
  (p.post_id, p.page_id, p.title, p.permalink, p.post_type, p.publish_time, p.fetched_at)

/-! ## Concrete fixtures for counterexamples and witnesses -/

/-- A canonical post on page `g` published 2025-10-01 10:00 with no metrics. -/
def basePost : Post :=
  { post_id := "p1"
    page_id := "g"
    title := ""
    permalink := none
    post_type := "Videos"
    publish_time := "2025-10-01T10:00:00+0000"
    views_count := some 0
    reach_count := some 0
    reactions_total := some 0
    comments_count := some 0
    shares_count := some 0
    total_engagement := some 0
    pes := some 0
    fetched_at := "f0" }

/-- A store holding `basePost` and the page row resolving "Alpha" to `g`. -/
def baseStore : Store := { pages := [("g", "Alpha")], posts := [basePost] }

/-- A store with the page row only and no posts. -/
def emptyStore : Store := { pages := [("g", "Alpha")], posts := [] }

/-- A CSV row for page Alpha published (after the +8h offset)
2025-10-01 10:11 — eleven minutes after `basePost` — with 5 views. -/
def row11 : CsvRow :=
  { pageName := some "Alpha"
    postId := some "x"
    publishTime := some "10/01/2025 02:11"
    title := none
    ptype := none
    views := some "5"
    reach := none
    reactions := none
    comments := none
    shares := none }

/-- The same row with an unparsable non-empty publish time. -/
def rowGarbage : CsvRow := { row11 with publishTime := some "garbage" }

/-- The same row carrying a negative reactions value. -/
def rowNegative : CsvRow := { row11 with reactions := some "-5" }

/-- A stored post whose engagement lives entirely in reactions. -/
def postTE : Post :=
  { basePost with reactions_total := some 10, total_engagement := some 10, pes := some 10 }

/-- An incoming record whose engagement lives entirely in comments. -/
def mTE : Metrics := { views := 0, reach := 0, reactions := 0, comments := 5, shares := 0 }

/-- Dedup fixture: the `pageid_postid`-shaped duplicate, higher engagement,
no views. -/
def dupA : Post := { basePost with post_id := "g_111", total_engagement := some 10 }

/-- Dedup fixture: the bare-id duplicate, lower engagement, 100 views. -/
def dupB : Post :=
  { basePost with post_id := "111", total_engagement := some 5, views_count := some 100 }

/-! ## Shared helper lemmas -/

theorem mergeUpdate_getD_le (p : Post) (m : Metrics) :
    p.views_count.getD 0 ≤ (mergeUpdate p m).views_count.getD 0 ∧
    p.reach_count.getD 0 ≤ (mergeUpdate p m).reach_count.getD 0 ∧
    p.reactions_total.getD 0 ≤ (mergeUpdate p m).reactions_total.getD 0 ∧
    p.comments_count.getD 0 ≤ (mergeUpdate p m).comments_count.getD 0 ∧
    p.shares_count.getD 0 ≤ (mergeUpdate p m).shares_count.getD 0 := by
  simp only [mergeUpdate, Option.getD_some]
  exact ⟨le_max_left _ _, le_max_left _ _, le_max_left _ _, le_max_left _ _, le_max_left _ _⟩

theorem mergeSeq_getD_le (p : Post) (ms : List Metrics) :
    p.views_count.getD 0 ≤ (mergeSeq p ms).views_count.getD 0 ∧
    p.reach_count.getD 0 ≤ (mergeSeq p ms).reach_count.getD 0 ∧
    p.reactions_total.getD 0 ≤ (mergeSeq p ms).reactions_total.getD 0 ∧
    p.comments_count.getD 0 ≤ (mergeSeq p ms).comments_count.getD 0 ∧
    p.shares_count.getD 0 ≤ (mergeSeq p ms).shares_count.getD 0 := by
  induction ms generalizing p with
  | nil => simp [mergeSeq]
  | cons a l ih =>
    have h1 := mergeUpdate_getD_le p a
    have h2 := ih (mergeUpdate p a)
    simp only [mergeSeq, List.foldl_cons] at h2 ⊢
    exact ⟨h1.1.trans h2.1, h1.2.1.trans h2.2.1, h1.2.2.1.trans h2.2.2.1,
           h1.2.2.2.1.trans h2.2.2.2.1, h1.2.2.2.2.trans h2.2.2.2.2⟩

/-! ## C1 — metric monotonicity of the matched-record merge -/

/-- **C1** For every canonical post and every sequence of matched-record
merges, each metric field (reactions, comments, shares, views, reach) is
non-decreasing across the sequence (extending a sequence by one merge applies
`mergeUpdate` to its result, and every single merge can only raise the
null-coalesced stored value); an incoming value not above the stored value
leaves the stored value unchanged. -/
theorem merge_metric_monotonic (p : Post) (ms : List Metrics) (m : Metrics) :
    (mergeSeq p (ms ++ [m]) = mergeUpdate (mergeSeq p ms) m) ∧
    (p.views_count.getD 0 ≤ (mergeSeq p ms).views_count.getD 0 ∧
     p.reach_count.getD 0 ≤ (mergeSeq p ms).reach_count.getD 0 ∧
     p.reactions_total.getD 0 ≤ (mergeSeq p ms).reactions_total.getD 0 ∧
     p.comments_count.getD 0 ≤ (mergeSeq p ms).comments_count.getD 0 ∧
     p.shares_count.getD 0 ≤ (mergeSeq p ms).shares_count.getD 0) ∧
    (m.views ≤ p.views_count.getD 0 →
      (mergeUpdate p m).views_count.getD 0 = p.views_count.getD 0) ∧
    (m.reach ≤ p.reach_count.getD 0 →
      (mergeUpdate p m).reach_count.getD 0 = p.reach_count.getD 0) ∧
    (m.reactions ≤ p.reactions_total.getD 0 →
      (mergeUpdate p m).reactions_total.getD 0 = p.reactions_total.getD 0) ∧
    (m.comments ≤ p.comments_count.getD 0 →
      (mergeUpdate p m).comments_count.getD 0 = p.comments_count.getD 0) ∧
    (m.shares ≤ p.shares_count.getD 0 →
      (mergeUpdate p m).shares_count.getD 0 = p.shares_count.getD 0) := by
  refine ⟨?_, mergeSeq_getD_le p ms, ?_, ?_, ?_, ?_, ?_⟩
  · simp [mergeSeq]
  all_goals
    intro h
    simp only [mergeUpdate, Option.getD_some]
    omega

/-- Witness for C1 at a concrete post and merge sequence. -/
theorem merge_metric_monotonic_witness :
    (3 : Int) ≤ basePost.views_count.getD 0 + 3 ∧
    (mergeUpdate { basePost with views_count := some 3 } mTE).views_count.getD 0 =
      ({ basePost with views_count := some 3 } : Post).views_count.getD 0 :=
  ⟨by decide,
   (merge_metric_monotonic { basePost with views_count := some 3 } [] mTE).2.2.1
     (by decide)⟩

/-! ## C3 — `total_engagement` after a merge -/

/-- Counterexample to C3: after merging an incoming record whose engagement
sits in a different column than the stored engagement, the stored
`total_engagement` (10) differs from the sum of the stored metric fields
(10 + 5 + 0): the column is maxed against the *incoming* sum, not recomputed
from the merged fields. -/
theorem total_engagement_not_derived :
    (mergeUpdate postTE mTE).total_engagement ≠
      some ((mergeUpdate postTE mTE).reactions_total.getD 0 +
            (mergeUpdate postTE mTE).comments_count.getD 0 +
            (mergeUpdate postTE mTE).shares_count.getD 0) := by decide

/-- **C3 (amended)** Immediately after a merge into an existing post, the
stored `totalEngagement` equals the maximum of its previous null-coalesced
value and the *incoming* record's `reactions + comments + shares`; it is not
recomputed from the post's merged metric fields, so it can differ from their
sum. -/
theorem total_engagement_from_incoming (p : Post) (m : Metrics) :
    (mergeUpdate p m).total_engagement =
      some (max (p.total_engagement.getD 0) (m.reactions + m.comments + m.shares)) := rfl

/-! ## C9 — atomicity of the `db_connection` context manager -/

/-- **C9** Every database operation run inside the `db_connection` context
manager is atomic: when the managed block raises, the transaction is rolled
back — the store is exactly the committed state from before the block — and
the exception is re-raised; the commit (publishing the block's result)
happens exactly when the block completes without error. -/
theorem db_connection_atomic {α ε : Type} (block : α → Except ε α) (s : α) :
    (∀ e, block s = Except.error e → db_connection block s = (s, some e)) ∧
    (∀ s2, block s = Except.ok s2 → db_connection block s = (s2, none)) := by
  constructor <;> intro x h <;> simp [db_connection, h]

/-- Witness for C9: a concrete failing block rolls back, a concrete
succeeding block commits. -/
theorem db_connection_atomic_witness :
    ((fun _ : Nat => (Except.error "boom" : Except String Nat)) 7 =
      Except.error "boom") ∧
    db_connection (fun _ : Nat => (Except.error "boom" : Except String Nat)) 7 =
      (7, some "boom") ∧
    db_connection (fun n : Nat => (Except.ok (n + 1) : Except String Nat)) 7 =
      (8, none) :=
  ⟨rfl,
   (db_connection_atomic (fun _ : Nat => (Except.error "boom" : Except String Nat)) 7).1
     "boom" rfl,
   (db_connection_atomic (fun n : Nat => (Except.ok (n + 1) : Except String Nat)) 7).2
     8 rfl⟩

/-! ## C10 — the matched-record merge only writes metric columns -/

/-- **C10** Merging a record into a matched post modifies only the metric
columns: after `UPDATE … WHERE post_id = ?`, every row's identity columns
(post id, page key, title, permalink, post type, publish time, fetch
timestamp) are exactly what they were, for every store, target id and
incoming record. -/
theorem merge_frame_identity_columns (posts : List Post) (pid : String) (m : Metrics) :
    (updateWhere posts pid m).map identityCols = posts.map identityCols ∧
    ∀ p : Post, identityCols (mergeUpdate p m) = identityCols p := by
  refine ⟨?_, fun p => rfl⟩
  rw [updateWhere, List.map_map]
  apply List.map_congr_left
  intro q _
  cases h : (q.post_id == pid)
  · simp only [Function.comp_apply, updOne, h, Bool.false_eq_true, if_false]
  · simp only [Function.comp_apply, updOne, h, if_true]
    rfl

/-! ## C7 — handling of unparsable publish timestamps -/

set_option maxRecDepth 100000 in
/-- Counterexample to C7: `parse_datetime_with_offset` returns a non-empty
unparsable timestamp *unchanged* instead of rejecting it, the importer does
not count the record as skipped, and the record contributes a new canonical
post (with the raw string as its publish time) to the store. -/
theorem unparsable_timestamp_not_skipped :
    parse_datetime_with_offset "garbage" = some "garbage" ∧
    (import_csv emptyStore [rowGarbage] "n").2.skipped = 0 ∧
    (import_csv emptyStore [rowGarbage] "n").2.created = 1 ∧
    (import_csv emptyStore [rowGarbage] "n").1.posts.length = 1 := by decide

/-- **C7 (amended)** Only an *empty or missing* publish timestamp is rejected
by the normalizer (`None`, counted as skipped, contributing nothing); a
non-empty unparsable timestamp is passed through unchanged and the record
proceeds into matching and creation. -/
theorem unparsable_timestamp_passthrough :
    parse_datetime_with_offset "" = none ∧
    (∀ ds : String, ds ≠ "" → strptimeMDYHM (pyStrip ds) = none →
      parse_datetime_with_offset ds = some ds) ∧
    (∀ now s c row, normalizeRow (Store.pages s) row = none →
      importRowStep now (s, c) row = (s, { c with skipped := c.skipped + 1 })) ∧
    (∀ pages row, row.publishTime.getD "" = "" → normalizeRow pages row = none) := by
  refine ⟨rfl, ?_, ?_, ?_⟩
  · intro ds hne hfail
    simp [parse_datetime_with_offset, hne, hfail]
  · intro now s c row h
    simp [importRowStep, h]
  · intro pages row h
    simp only [normalizeRow, h]
    cases hc : (row.postId.getD "" == "" || row.pageName.getD "" == "")
    · cases hr : resolvePageId (buildPageLookup pages) (row.pageName.getD "") <;> rfl
    · rfl

/-- Witness for C7 (amended) at concrete inputs. -/
theorem unparsable_timestamp_passthrough_witness :
    ("garbage" : String) ≠ "" ∧
    strptimeMDYHM (pyStrip "garbage") = none ∧
    parse_datetime_with_offset "garbage" = some "garbage" ∧
    normalizeRow emptyStore.pages { row11 with publishTime := none } = none ∧
    importRowStep "n" (emptyStore, ⟨0, 0, 0⟩) { row11 with publishTime := none } =
      (emptyStore, ⟨0, 0, 1⟩) :=
  ⟨by decide, by decide,
   unparsable_timestamp_passthrough.2.1 "garbage" (by decide) (by decide),
   unparsable_timestamp_passthrough.2.2.2 emptyStore.pages
     { row11 with publishTime := none } (by decide),
   unparsable_timestamp_passthrough.2.2.1 "n" emptyStore ⟨0, 0, 0⟩
     { row11 with publishTime := none }
     (unparsable_timestamp_passthrough.2.2.2 emptyStore.pages
       { row11 with publishTime := none } (by decide))⟩

/-! ## C8 — negative incoming metric values -/

set_option maxRecDepth 100000 in
/-- Counterexample to C8: `safe_int` does *not* clamp negatives to zero —
`safe_int("-5") = -5` — and on the create path the negative value is stored
as-is in the new canonical post. -/
theorem negative_metric_stored_on_create :
    safe_int "-5" = -5 ∧
    (import_csv emptyStore [rowNegative] "n").1.posts.map
      (fun p => p.reactions_total) = [some (-5)] ∧
    ¬ (0 : Int) ≤ -5 := by decide

/-- **C8 (amended)** A negative incoming metric is passed through unclamped;
merging into an existing post still never decreases the stored value and
never turns a non-negative stored value negative (the `MAX(COALESCE(…,0),?)`
absorbs it), but a record that *creates* a canonical post stores the
negative value as-is. -/
theorem negative_metric_merge_bounds (p : Post) (m : Metrics)
    (pid pt title ptype now : String) :
    ((0 ≤ p.views_count.getD 0 → 0 ≤ (mergeUpdate p m).views_count.getD 0) ∧
     (0 ≤ p.reach_count.getD 0 → 0 ≤ (mergeUpdate p m).reach_count.getD 0) ∧
     (0 ≤ p.reactions_total.getD 0 → 0 ≤ (mergeUpdate p m).reactions_total.getD 0) ∧
     (0 ≤ p.comments_count.getD 0 → 0 ≤ (mergeUpdate p m).comments_count.getD 0) ∧
     (0 ≤ p.shares_count.getD 0 → 0 ≤ (mergeUpdate p m).shares_count.getD 0)) ∧
    (p.views_count.getD 0 ≤ (mergeUpdate p m).views_count.getD 0 ∧
     p.reach_count.getD 0 ≤ (mergeUpdate p m).reach_count.getD 0 ∧
     p.reactions_total.getD 0 ≤ (mergeUpdate p m).reactions_total.getD 0 ∧
     p.comments_count.getD 0 ≤ (mergeUpdate p m).comments_count.getD 0 ∧
     p.shares_count.getD 0 ≤ (mergeUpdate p m).shares_count.getD 0) ∧
    ((newPostFromCsv pid pt title ptype m now).views_count = some m.views ∧
     (newPostFromCsv pid pt title ptype m now).reach_count = some m.reach ∧
     (newPostFromCsv pid pt title ptype m now).reactions_total = some m.reactions ∧
     (newPostFromCsv pid pt title ptype m now).comments_count = some m.comments ∧
     (newPostFromCsv pid pt title ptype m now).shares_count = some m.shares) := by
  refine ⟨?_, mergeUpdate_getD_le p m, rfl, rfl, rfl, rfl, rfl⟩
  have h := mergeUpdate_getD_le p m
  exact ⟨fun h0 => h0.trans h.1, fun h0 => h0.trans h.2.1, fun h0 => h0.trans h.2.2.1,
         fun h0 => h0.trans h.2.2.2.1, fun h0 => h0.trans h.2.2.2.2⟩

/-- Witness for C8 (amended) at a concrete post and a negative record. -/
theorem negative_metric_merge_bounds_witness :
    (0 : Int) ≤ basePost.views_count.getD 0 ∧
    0 ≤ (mergeUpdate basePost ⟨-7, -7, -7, -7, -7⟩).views_count.getD 0 :=
  ⟨by decide,
   (negative_metric_merge_bounds basePost ⟨-7, -7, -7, -7, -7⟩ "g" "t" "" "V" "n").1.1
     (by decide)⟩

/-! ## C6 — the synthetic identifier -/

theorem hexPairs_length (l : List Nat) : ((l.map hexByte).flatten).length = 2 * l.length := by
  induction l with
  | nil => rfl
  | cons a t ih =>
    simp only [List.map_cons, List.flatten_cons, List.length_append, ih, hexByte,
      List.length_cons, List.length_nil]
    omega

theorem md5Bytes_length (msg : List Nat) : (md5Bytes msg).length = 16 := by
  simp [md5Bytes, toLE4]

theorem md5Hex_data_length (s : String) : (md5Hex s).data.length = 32 := by
  show (((md5Bytes (strBytes s)).map hexByte).flatten).length = 32
  rw [hexPairs_length, md5Bytes_length]

theorem isoChars_second_zero (t : DT) (h : t.second = 0) :
    isoChars t = (isoChars t).take 16 ++ [Char.ofNat 58, Char.ofNat 48, Char.ofNat 48] := by
  simp only [isoChars, pad4, pad2, h]
  rfl

/-- **C6** The synthetic identifier is a pure function of the page key and
the minute-truncated publish time: two generated timestamps (seconds are
always zero on this pipeline) agreeing on their 16-character minute
truncation agree entirely, so `synthesize` yields the identical string; and
every synthetic id has fixed length 16 and begins with the `csv_` prefix. -/
theorem synthetic_id_stable :
    (∀ pageKey : String, ∀ dt1 dt2 : DT, dt1.second = 0 → dt2.second = 0 →
      strTake (isoformat dt1) 16 = strTake (isoformat dt2) 16 →
      synthesize pageKey (isoformat dt1) = synthesize pageKey (isoformat dt2)) ∧
    (∀ pageKey pt : String, (synthesize pageKey pt).length = 16 ∧
      (synthesize pageKey pt).data.take 4 = "csv_".data) := by
  constructor
  · intro pageKey dt1 dt2 h1 h2 h
    have e : (isoChars dt1).take 16 = (isoChars dt2).take 16 := congrArg String.data h
    have : isoformat dt1 = isoformat dt2 := by
      show String.mk (isoChars dt1) = String.mk (isoChars dt2)
      rw [isoChars_second_zero dt1 h1, isoChars_second_zero dt2 h2, e]
    rw [this]
  · intro pageKey pt
    constructor
    · show (("csv_" ++ strTake (md5Hex (pageKey ++ "_" ++ pt)) 12)).data.length = 16
      cases hx : md5Hex (pageKey ++ "_" ++ pt) with
      | mk l =>
        have hl : l.length = 32 := by
          have := md5Hex_data_length (pageKey ++ "_" ++ pt)
          rw [hx] at this
          exact this
        show ("csv_".data ++ (l.take 12)).length = 16
        simp [hl]
    · show (("csv_" ++ strTake (md5Hex (pageKey ++ "_" ++ pt)) 12)).data.take 4 = "csv_".data
      rfl

/-- Witness for C6 at a concrete page key and timestamp. -/
theorem synthetic_id_stable_witness :
    (⟨2025, 10, 1, 10, 11, 0⟩ : DT).second = 0 ∧
    synthesize "g" (isoformat ⟨2025, 10, 1, 10, 11, 0⟩) =
      synthesize "g" (isoformat ⟨2025, 10, 1, 10, 11, 0⟩) ∧
    (synthesize "g" (isoformat ⟨2025, 10, 1, 10, 11, 0⟩)).length = 16 :=
  ⟨rfl,
   synthetic_id_stable.1 "g" ⟨2025, 10, 1, 10, 11, 0⟩ ⟨2025, 10, 1, 10, 11, 0⟩ rfl rfl rfl,
   (synthetic_id_stable.2 "g" (isoformat ⟨2025, 10, 1, 10, 11, 0⟩)).1⟩

/-! ## C4 — the dedup audit -/

/-- Counterexample to C4: in a two-member group the audit keeps the
higher-engagement member *unchanged* and simply deletes the other; the
survivor's views (0) are not folded with the deleted member's views (100),
so its metrics are not the elementwise maximum of the two originals. -/
theorem dedup_no_metric_fold :
    cleanup_duplicates [dupA, dupB] = [dupA] ∧
    dupA.page_id = dupB.page_id ∧
    get_core_id dupA.post_id = get_core_id dupB.post_id ∧
    dupA.post_id ≠ dupB.post_id ∧
    (cleanup_duplicates [dupA, dupB]).map (fun p => p.views_count.getD 0) ≠
      [max (dupA.views_count.getD 0) (dupB.views_count.getD 0)] := by decide

/-- **C4 (amended)** Given a store of two canonical posts on one page whose
dedup keys coincide but whose ids differ, one audit run leaves exactly the
member with the strictly highest `totalEngagement`, *unchanged* — its metric
fields are its own stored values, not a fold of the two — and a second run
deletes nothing. -/
theorem dedup_two_post_convergence (A B : Post)
    (hpage : A.page_id = B.page_id)
    (hcore : get_core_id A.post_id = get_core_id B.post_id)
    (hid : A.post_id ≠ B.post_id)
    (heng : engOf B < engOf A) :
    cleanup_duplicates [A, B] = [A] ∧
    cleanup_duplicates (cleanup_duplicates [A, B]) = cleanup_duplicates [A, B] := by
  have hBA : (B.post_id == A.post_id) = false := beq_eq_false_iff_ne.mpr (Ne.symm hid)
  have hAA : (A.post_id == A.post_id) = true := beq_self_eq_true _
  have hkey : ((A.page_id, get_core_id A.post_id) == (B.page_id, get_core_id B.post_id)) = true := by
    rw [beq_iff_eq, hpage, hcore]
  have hone : cleanup_duplicates [A] = [A] := by
    simp [cleanup_duplicates, deletedIds, groupKeys, groupMembers, sortByEngDesc]
  have hmain : cleanup_duplicates [A, B] = [A] := by
    have hkeys : groupKeys [A, B] = [(A.page_id, get_core_id A.post_id)] := by
      simp [groupKeys, hkey]
      exact ⟨hpage.symm, hcore.symm⟩
    have hmem : groupMembers [A, B] (A.page_id, get_core_id A.post_id) = [A, B] := by
      simp [groupMembers, hpage, hcore]
    have hsort : sortByEngDesc [A, B] = [A, B] := by
      simp [sortByEngDesc, insertDesc, le_of_lt heng]
    have hdel : deletedIds [A, B] = [B.post_id] := by
      simp [deletedIds, hkeys, hmem, hsort]
    simp [cleanup_duplicates, hdel, hBA, hAA]
  exact ⟨hmain, by rw [hmain, hone]⟩

/-- Witness for C4 (amended) at the concrete duplicate pair. -/
theorem dedup_two_post_convergence_witness :
    engOf dupB < engOf dupA ∧ cleanup_duplicates [dupA, dupB] = [dupA] :=
  ⟨by decide,
   (dedup_two_post_convergence dupA dupB (by decide) (by decide) (by decide) (by decide)).1⟩

/-! ## C5 — the fuzzy-match boundary -/

/-- The boundary-test post: fixed identity, page `g`, publish time
2025-10-01 10:00, parameterized title and metric columns. -/
def boundaryPost (ti : String) (vc rc rt cc sc te pe : Option Int) : Post :=
  { post_id := "p1"
    page_id := "g"
    title := ti
    permalink := none
    post_type := "Videos"
    publish_time := "2025-10-01T10:00:00+0000"
    views_count := vc
    reach_count := rc
    reactions_total := rt
    comments_count := cc
    shares_count := sc
    total_engagement := te
    pes := pe
    fetched_at := "f0" }

set_option maxRecDepth 400000 in
/-- Counterexample to C5: a record 11 minutes away from the only stored post
(one minute beyond the ±10 cap) still *resolves to that post* — through the
closest-time fallback, which accepts same-date posts without recorded views
within 60 minutes — updating it instead of creating a new canonical post. -/
theorem beyond_cap_still_resolves :
    (import_csv baseStore [row11] "n").2 = ⟨1, 0, 0⟩ ∧
    (import_csv baseStore [row11] "n").1.posts.map
      (fun p => (p.post_id, p.views_count)) = [("p1", some 5)] := by decide

theorem viewsGate_boundaryPost (ti : String) (rc rt cc sc te pe : Option Int)
    (v : Int) (hv : 0 < v) :
    (decide ((boundaryPost ti (some v) rc rt cc sc te pe).views_count.getD 0 > 0)) = true :=
  decide_eq_true hv

theorem matchClosest_no_candidates (posts : List Post) (pid pt : String)
    (h : posts.filter (closestCand posts pid (strTake pt 10)) = []) :
    matchClosest posts pid pt = none := by
  unfold matchClosest
  cases hf : fromisoformat pt with
  | none => rfl
  | some base =>
    simp only []
    rw [h]
    rfl

set_option maxRecDepth 400000 in
/-- **C5 (amended)** For a store holding one canonical post, an incoming
record on the same page whose normalized publish time differs by exactly the
10-minute cap resolves to that post (fuzzy tier hit, post updated, nothing
created); a record differing by 11 minutes escapes all time tiers, and —
*provided the stored post has recorded views (`views_count > 0`, which bars
the same-date closest-time fallback) and no title match applies* — resolves
to nothing and creates a new canonical post. -/
theorem fuzzy_cap_boundary (ti : String) (rc rt cc sc te pe : Option Int)
    (v : Int) (m : Metrics) (now : String) (hv : 0 < v) :
    processParsed [boundaryPost ti (some v) rc rt cc sc te pe] "g"
        "2025-10-01T10:10:00" "" "Videos" m now =
      (updateWhere [boundaryPost ti (some v) rc rt cc sc te pe] "p1" m, false) ∧
    processParsed [boundaryPost ti (some v) rc rt cc sc te pe] "g"
        "2025-10-01T10:11:00" "" "Videos" m now =
      ([boundaryPost ti (some v) rc rt cc sc te pe] ++
        [newPostFromCsv "g" "2025-10-01T10:11:00" "" "Videos" m now], true) := by
  constructor
  · rfl
  · have h5 : matchClosest [boundaryPost ti (some v) rc rt cc sc te pe] "g"
        "2025-10-01T10:11:00" = none := by
      apply matchClosest_no_candidates
      simp only [closestCand, List.filter, List.any_cons, List.any_nil,
        viewsGate_boundaryPost ti rc rt cc sc te pe v hv]
      rfl
    have h1 : matchByMinute [boundaryPost ti (some v) rc rt cc sc te pe] "g"
        (strTake "2025-10-01T10:11:00" 16) = none := rfl
    have h2 : matchFuzzy [boundaryPost ti (some v) rc rt cc sc te pe] "g"
        "2025-10-01T10:11:00" = none := rfl
    have h3 : matchTitleSameDate [boundaryPost ti (some v) rc rt cc sc te pe] "g"
        "2025-10-01T10:11:00" "" = none := rfl
    have h4 : matchTitleAnyDate [boundaryPost ti (some v) rc rt cc sc te pe] "g"
        "" = none := rfl
    have hres : resolveMatch [boundaryPost ti (some v) rc rt cc sc te pe] "g"
        "2025-10-01T10:11:00" "" = none := by
      simp only [resolveMatch, h1, h2, h3, h4, h5]
    simp only [processParsed, hres]
    rfl

/-- Witness for C5 (amended) at concrete metric values. -/
theorem fuzzy_cap_boundary_witness :
    (0 : Int) < 5 ∧
    processParsed [boundaryPost "" (some 5) (some 0) (some 0) (some 0) (some 0)
        (some 0) (some 0)] "g" "2025-10-01T10:10:00" "" "Videos" mTE "n" =
      (updateWhere [boundaryPost "" (some 5) (some 0) (some 0) (some 0) (some 0)
        (some 0) (some 0)] "p1" mTE, false) :=
  ⟨by decide,
   (fuzzy_cap_boundary "" (some 0) (some 0) (some 0) (some 0) (some 0) (some 0)
     5 mTE "n" (by decide)).1⟩

/-! ## C2 — re-importing the same batch -/

set_option maxRecDepth 400000 in
/-- Counterexample to C2: importing the same single-record batch a second
time, starting from the store the first import produced, *creates a new
canonical post*.  The record (11 minutes from `basePost`, 5 views) resolves
via the views-gated closest-time fallback on the first run and raises the
post's views; on the second run the fallback no longer admits the post
(its views are now positive), nothing matches, and a synthetic post is
inserted. -/
theorem import_csv_second_run_creates :
    (import_csv baseStore [row11] "n1").1.posts.length = 1 ∧
    (import_csv (import_csv baseStore [row11] "n1").1 [row11] "n2").2.created = 1 ∧
    (import_csv (import_csv baseStore [row11] "n1").1 [row11] "n2").1.posts.length = 2 := by
  decide

/-! ### Algebra of the matched-record update -/

theorem mergeUpdate_idem (q : Post) (m : Metrics) :
    mergeUpdate (mergeUpdate q m) m = mergeUpdate q m := by
  simp [mergeUpdate, max_assoc]

theorem updOne_idem (pid : String) (m : Metrics) (q : Post) :
    updOne pid m (updOne pid m q) = updOne pid m q := by
  unfold updOne
  cases h : (q.post_id == pid)
  · simp [h]
  · simp [show ((mergeUpdate q m).post_id == pid) = true from h, mergeUpdate_idem]

theorem updateWhere_idem (l : List Post) (pid : String) (m : Metrics) :
    updateWhere (updateWhere l pid m) pid m = updateWhere l pid m := by
  unfold updateWhere
  rw [List.map_map]
  exact List.map_congr_left (fun q _ => updOne_idem pid m q)

theorem updOne_post_id (pid : String) (m : Metrics) (q : Post) :
    (updOne pid m q).post_id = q.post_id := by
  unfold updOne; split <;> rfl

theorem updOne_views_le (pid : String) (m : Metrics) (q : Post) :
    q.views_count.getD 0 ≤ (updOne pid m q).views_count.getD 0 := by
  unfold updOne
  split
  · exact (mergeUpdate_getD_le q m).1
  · exact le_refl _

/-! ### The metric-only update commutes with the identity-reading tiers -/

theorem find?_map_stable (l : List Post) (f : Post → Post) (pred : Post → Bool)
    (hp : ∀ q, pred (f q) = pred q) :
    (l.map f).find? pred = (l.find? pred).map f := by
  rw [List.find?_map]
  have : pred ∘ f = pred := funext hp
  rw [this]

theorem findSome?_map_opt {α β γ : Type} (l : List α) (g : α → Option β) (f : β → γ)
    (g2 : α → Option γ) (hg : ∀ a, g2 a = (g a).map f) :
    l.findSome? g2 = (l.findSome? g).map f := by
  induction l with
  | nil => rfl
  | cons a t ih =>
    rw [List.findSome?_cons, List.findSome?_cons, hg]
    cases g a <;> simp [ih]

theorem matchByMinute_map_upd (l : List Post) (pid0 : String) (m : Metrics)
    (pid k : String) :
    matchByMinute (l.map (updOne pid0 m)) pid k =
      (matchByMinute l pid k).map (updOne pid0 m) := by
  unfold matchByMinute
  apply find?_map_stable
  intro q; unfold updOne; split <;> rfl

theorem matchFuzzy_map_upd (l : List Post) (pid0 : String) (m : Metrics)
    (pid pt : String) :
    matchFuzzy (l.map (updOne pid0 m)) pid pt =
      (matchFuzzy l pid pt).map (updOne pid0 m) := by
  unfold matchFuzzy
  cases fromisoformat pt with
  | none => rfl
  | some base =>
    exact findSome?_map_opt fuzzyOffsets _ _ _
      (fun off => matchByMinute_map_upd l pid0 m pid _)

theorem matchTitleSameDate_map_upd (l : List Post) (pid0 : String) (m : Metrics)
    (pid pt title : String) :
    matchTitleSameDate (l.map (updOne pid0 m)) pid pt title =
      (matchTitleSameDate l pid pt title).map (updOne pid0 m) := by
  unfold matchTitleSameDate
  split
  · rfl
  · apply find?_map_stable
    intro q; unfold updOne titleEq; split <;> rfl

theorem matchTitleAnyDate_map_upd (l : List Post) (pid0 : String) (m : Metrics)
    (pid title : String) :
    matchTitleAnyDate (l.map (updOne pid0 m)) pid title =
      (matchTitleAnyDate l pid title).map (updOne pid0 m) := by
  unfold matchTitleAnyDate
  split
  · rfl
  · apply find?_map_stable
    intro q; unfold updOne titleEq; split <;> rfl

/-! ### Preservation of a failed closest-time tier -/

theorem updOne_page_id (pid : String) (m : Metrics) (q : Post) :
    (updOne pid m q).page_id = q.page_id := by
  unfold updOne; split <;> rfl

theorem updOne_publish_time (pid : String) (m : Metrics) (q : Post) :
    (updOne pid m q).publish_time = q.publish_time := by
  unfold updOne; split <;> rfl

theorem closestStep_none_cases (base : DT) (d : Int) (c : Post) :
    closestStep base (none, d) c = (none, d) ∨
    (closestStep base (none, d) c).1.isSome = true := by
  unfold closestStep
  cases fromisoformat (pyReplace c.publish_time "+0000" "") with
  | none => exact Or.inl rfl
  | some ct =>
    simp only []
    split
    · exact Or.inr rfl
    · exact Or.inl rfl

theorem closestStep_isSome (base : DT) (st : Option Post × Int) (c : Post)
    (h : st.1.isSome = true) : (closestStep base st c).1.isSome = true := by
  unfold closestStep
  cases fromisoformat (pyReplace c.publish_time "+0000" "") with
  | none => exact h
  | some ct =>
    simp only []
    split
    · rfl
    · exact h

theorem foldl_closest_isSome (base : DT) (t : List Post) (st : Option Post × Int)
    (h : st.1.isSome = true) : ((t.foldl (closestStep base) st).1).isSome = true := by
  induction t generalizing st with
  | nil => exact h
  | cons c r ih => exact ih _ (closestStep_isSome base st c h)

theorem foldl_closest_none (base : DT) (l : List Post) (d : Int)
    (h : (l.foldl (closestStep base) (none, d)).1 = none) :
    l.foldl (closestStep base) (none, d) = (none, d) ∧
    ∀ c ∈ l, closestStep base (none, d) c = (none, d) := by
  induction l with
  | nil => exact ⟨rfl, by simp⟩
  | cons c r ih =>
    rw [List.foldl_cons] at h
    rcases closestStep_none_cases base d c with hc | hc
    · rw [hc] at h
      obtain ⟨h1, h2⟩ := ih h
      refine ⟨by rw [List.foldl_cons, hc, h1], ?_⟩
      intro x hx
      rcases List.mem_cons.mp hx with hx | hx
      · rw [hx]; exact hc
      · exact h2 x hx
    · exfalso
      have h3 := foldl_closest_isSome base r _ hc
      rw [h] at h3
      exact Bool.noConfusion h3

theorem foldl_closest_none_of_steps (base : DT) (l : List Post) (d : Int)
    (h : ∀ c ∈ l, closestStep base (none, d) c = (none, d)) :
    l.foldl (closestStep base) (none, d) = (none, d) := by
  induction l with
  | nil => rfl
  | cons c r ih =>
    rw [List.foldl_cons, h c (List.mem_cons_self c r)]
    exact ih (fun x hx => h x (List.mem_cons_of_mem c hx))

theorem closestStep_none_ext (base : DT) (d : Int) (c1 c2 : Post)
    (hpt : c2.publish_time = c1.publish_time)
    (h : closestStep base (none, d) c1 = (none, d)) :
    closestStep base (none, d) c2 = (none, d) := by
  unfold closestStep at h ⊢
  rw [hpt]
  cases hf : fromisoformat (pyReplace c1.publish_time "+0000" "") with
  | none => rfl
  | some ct =>
    rw [hf] at h
    simp only [] at h ⊢
    split at h
    · exact absurd (congrArg Prod.fst h) (by simp)
    · split
      · exact absurd (by assumption) (by assumption)
      · rfl

theorem matchClosest_none_map_upd (l : List Post) (pid0 : String) (m : Metrics)
    (pid pt : String) (h : matchClosest l pid pt = none) :
    matchClosest (l.map (updOne pid0 m)) pid pt = none := by
  unfold matchClosest at h ⊢
  cases hf : fromisoformat pt with
  | none => rfl
  | some base =>
    rw [hf] at h
    simp only [] at h ⊢
    obtain ⟨-, hsteps⟩ := foldl_closest_none base _ _ h
    have hall : ∀ c ∈ (l.map (updOne pid0 m)).filter
        (closestCand (l.map (updOne pid0 m)) pid (strTake pt 10)),
        closestStep base (none, 3600) c = (none, 3600) := by
      intro c hc
      obtain ⟨hcmem, hcpred⟩ := List.mem_filter.mp hc
      obtain ⟨p, hpl, rfl⟩ := List.mem_map.mp hcmem
      have hp1 : closestCand l pid (strTake pt 10) p = true := by
        unfold closestCand at hcpred ⊢
        rw [updOne_page_id, updOne_publish_time, updOne_post_id] at hcpred
        simp only [Bool.and_eq_true, Bool.not_eq_true', List.any_eq_false] at hcpred ⊢
        refine ⟨hcpred.1, ?_⟩
        intro q hq
        have h2 := hcpred.2 (updOne pid0 m q) (List.mem_map_of_mem _ hq)
        simp only [Bool.and_eq_true, decide_eq_true_eq, updOne_post_id, not_and] at h2 ⊢
        intro hv
        exact h2 (lt_of_lt_of_le hv (updOne_views_le pid0 m q))
      exact closestStep_none_ext base 3600 p _ (updOne_publish_time pid0 m p)
        (hsteps p (List.mem_filter.mpr ⟨hpl, hp1⟩))
    rw [foldl_closest_none_of_steps base _ _ hall]

/-! ### Resolution over a store extended by a freshly created post -/

theorem beq_false_symm (a b : String) (h : (a == b) = false) : (b == a) = false := by
  rw [beq_eq_false_iff_ne] at h ⊢
  exact h.symm

theorem find?_append_single (l : List Post) (np : Post) (pred : Post → Bool)
    (h : l.find? pred = none) :
    (l ++ [np]).find? pred = none ∨ (l ++ [np]).find? pred = some np := by
  rw [List.find?_append, h, Option.none_or]
  cases hp : pred np
  · exact Or.inl (by simp [List.find?, hp])
  · exact Or.inr (by simp [List.find?, hp])

theorem matchByMinute_append (l : List Post) (np : Post) (pid k : String)
    (h : matchByMinute l pid k = none) :
    matchByMinute (l ++ [np]) pid k = none ∨ matchByMinute (l ++ [np]) pid k = some np :=
  find?_append_single l np _ h

theorem findSome?_none_or {α β : Type} (l : List α) (g : α → Option β) (x : β)
    (h : ∀ a ∈ l, g a = none ∨ g a = some x) :
    l.findSome? g = none ∨ l.findSome? g = some x := by
  induction l with
  | nil => exact Or.inl rfl
  | cons a t ih =>
    rw [List.findSome?_cons]
    rcases h a (List.mem_cons_self a t) with ha | ha
    · rw [ha]
      exact ih (fun b hb => h b (List.mem_cons_of_mem a hb))
    · rw [ha]
      exact Or.inr rfl

theorem matchFuzzy_append (l : List Post) (np : Post) (pid pt : String)
    (h : matchFuzzy l pid pt = none) :
    matchFuzzy (l ++ [np]) pid pt = none ∨ matchFuzzy (l ++ [np]) pid pt = some np := by
  unfold matchFuzzy at h ⊢
  cases hf : fromisoformat pt with
  | none => exact Or.inl rfl
  | some base =>
    rw [hf] at h
    have hall := List.findSome?_eq_none_iff.mp h
    exact findSome?_none_or _ _ np (fun off hoff =>
      find?_append_single l np _ (hall off hoff))

theorem matchTitleSameDate_append (l : List Post) (np : Post) (pid pt ti : String)
    (h : matchTitleSameDate l pid pt ti = none) :
    matchTitleSameDate (l ++ [np]) pid pt ti = none ∨
    matchTitleSameDate (l ++ [np]) pid pt ti = some np := by
  unfold matchTitleSameDate at h ⊢
  cases hti : (ti == "")
  · simp only [hti, Bool.false_eq_true, if_false] at h ⊢
    exact find?_append_single l np _ h
  · exact Or.inl (by simp only [hti, if_true])

theorem matchTitleAnyDate_append (l : List Post) (np : Post) (pid ti : String)
    (h : matchTitleAnyDate l pid ti = none) :
    matchTitleAnyDate (l ++ [np]) pid ti = none ∨
    matchTitleAnyDate (l ++ [np]) pid ti = some np := by
  unfold matchTitleAnyDate at h ⊢
  cases hti : (ti == "" || !(decide (ti.length > 20)))
  · simp only [hti, Bool.false_eq_true, if_false] at h ⊢
    exact find?_append_single l np _ h
  · exact Or.inl (by simp only [hti, if_true])

theorem closestStep_some_val (base : DT) (d : Int) (c : Post)
    (h : (closestStep base (none, d) c).1.isSome = true) :
    (closestStep base (none, d) c).1 = some c := by
  unfold closestStep at h ⊢
  cases hf : fromisoformat (pyReplace c.publish_time "+0000" "") with
  | none => rw [hf] at h; exact Bool.noConfusion h
  | some ct =>
    rw [hf] at h
    simp only [] at h ⊢
    split at h
    · rename_i hcond
      rw [if_pos hcond]
    · exact Bool.noConfusion h

theorem matchClosest_append (l : List Post) (np : Post) (pid pt : String)
    (h : matchClosest l pid pt = none)
    (hnp : ∀ q ∈ l, (q.post_id == np.post_id) = false) :
    matchClosest (l ++ [np]) pid pt = none ∨ matchClosest (l ++ [np]) pid pt = some np := by
  unfold matchClosest at h ⊢
  cases hf : fromisoformat pt with
  | none => exact Or.inl rfl
  | some base =>
    rw [hf] at h
    simp only [] at h ⊢
    obtain ⟨heq, _⟩ := foldl_closest_none base _ _ h
    rw [List.filter_append]
    have hfilter : l.filter (closestCand (l ++ [np]) pid (strTake pt 10)) =
        l.filter (closestCand l pid (strTake pt 10)) := by
      apply List.filter_congr
      intro p hp
      unfold closestCand
      rw [List.any_append]
      have hone : ([np].any fun q =>
          decide (q.views_count.getD 0 > 0) && q.post_id == p.post_id) = false := by
        simp only [List.any_cons, List.any_nil, Bool.or_false,
          beq_false_symm _ _ (hnp p hp), Bool.and_false]
      rw [hone, Bool.or_false]
    rw [hfilter, List.foldl_append, heq]
    cases hcand : closestCand (l ++ [np]) pid (strTake pt 10) np
    · exact Or.inl (by simp [List.filter, hcand])
    · simp only [List.filter, hcand]
      rcases closestStep_none_cases base 3600 np with hstep | hstep
      · exact Or.inl (by simp [List.foldl, hstep])
      · exact Or.inr (by simpa [List.foldl] using closestStep_some_val base 3600 np hstep)

/-! ### Decomposing a failed resolution -/

theorem resolveMatch_none_parts (l : List Post) (pid pt ti : String)
    (h : resolveMatch l pid pt ti = none) :
    matchByMinute l pid (strTake pt 16) = none ∧ matchFuzzy l pid pt = none ∧
    matchTitleSameDate l pid pt ti = none ∧ matchTitleAnyDate l pid ti = none ∧
    matchClosest l pid pt = none := by
  unfold resolveMatch at h
  cases e1 : matchByMinute l pid (strTake pt 16) with
  | some p => rw [e1] at h; exact Option.noConfusion h
  | none =>
  rw [e1] at h
  cases e2 : matchFuzzy l pid pt with
  | some p => rw [e2] at h; exact Option.noConfusion h
  | none =>
  rw [e2] at h
  cases e3 : matchTitleSameDate l pid pt ti with
  | some p => rw [e3] at h; exact Option.noConfusion h
  | none =>
  rw [e3] at h
  cases e4 : matchTitleAnyDate l pid ti with
  | some p => rw [e4] at h; exact Option.noConfusion h
  | none =>
  rw [e4] at h
  cases e5 : matchClosest l pid pt with
  | some p => rw [e5] at h; exact Option.noConfusion h
  | none => exact ⟨rfl, rfl, rfl, rfl, rfl⟩

theorem resolveMatch_map_upd_none (l : List Post) (pid0 : String) (m : Metrics)
    (pid pt ti : String)
    (h : resolveMatch l pid pt ti = none) :
    resolveMatch (l.map (updOne pid0 m)) pid pt ti = none := by
  obtain ⟨e1, e2, e3, e4, e5⟩ := resolveMatch_none_parts l pid pt ti h
  have h1 : matchByMinute (l.map (updOne pid0 m)) pid (strTake pt 16) = none := by
    rw [matchByMinute_map_upd, e1]; rfl
  have h2 : matchFuzzy (l.map (updOne pid0 m)) pid pt = none := by
    rw [matchFuzzy_map_upd, e2]; rfl
  have h3 : matchTitleSameDate (l.map (updOne pid0 m)) pid pt ti = none := by
    rw [matchTitleSameDate_map_upd, e3]; rfl
  have h4 : matchTitleAnyDate (l.map (updOne pid0 m)) pid ti = none := by
    rw [matchTitleAnyDate_map_upd, e4]; rfl
  have h5 := matchClosest_none_map_upd l pid0 m pid pt e5
  unfold resolveMatch
  rw [h1, h2, h3, h4, h5]

theorem resolveMatch_append_or (l : List Post) (np : Post) (pid pt ti : String)
    (h : resolveMatch l pid pt ti = none)
    (hnp : ∀ q ∈ l, (q.post_id == np.post_id) = false) :
    resolveMatch (l ++ [np]) pid pt ti = none ∨
    ∃ k, resolveMatch (l ++ [np]) pid pt ti = some (np, k) := by
  obtain ⟨e1, e2, e3, e4, e5⟩ := resolveMatch_none_parts l pid pt ti h
  rcases matchByMinute_append l np pid (strTake pt 16) e1 with h1 | h1
  · rcases matchFuzzy_append l np pid pt e2 with h2 | h2
    · rcases matchTitleSameDate_append l np pid pt ti e3 with h3 | h3
      · rcases matchTitleAnyDate_append l np pid ti e4 with h4 | h4
        · rcases matchClosest_append l np pid pt e5 hnp with h5 | h5
          · exact Or.inl (by unfold resolveMatch; rw [h1, h2, h3, h4, h5])
          · exact Or.inr ⟨5, by unfold resolveMatch; rw [h1, h2, h3, h4, h5]⟩
        · exact Or.inr ⟨4, by unfold resolveMatch; rw [h1, h2, h3, h4]⟩
      · exact Or.inr ⟨3, by unfold resolveMatch; rw [h1, h2, h3]⟩
    · exact Or.inr ⟨2, by unfold resolveMatch; rw [h1, h2]⟩
  · exact Or.inr ⟨1, by unfold resolveMatch; rw [h1]⟩

/-! ### The creation branch is undone by no one -/

theorem mergeUpdate_newPost (pid pt title ptype : String) (m : Metrics) (now : String) :
    mergeUpdate (newPostFromCsv pid pt title ptype m now) m =
      newPostFromCsv pid pt title ptype m now := by
  simp [mergeUpdate, newPostFromCsv, max_self]

theorem updateWhere_append_fresh (l : List Post) (np : Post) (m : Metrics)
    (hl : ∀ q ∈ l, (q.post_id == np.post_id) = false)
    (hnp : mergeUpdate np m = np) :
    updateWhere (l ++ [np]) np.post_id m = l ++ [np] := by
  unfold updateWhere
  rw [List.map_append]
  congr 1
  · have : ∀ q ∈ l, updOne np.post_id m q = id q := by
      intro q hq
      unfold updOne
      simp [hl q hq]
    rw [List.map_congr_left this, List.map_id]
  · simp [updOne, hnp]

/-! ### Re-processing one normalized record is a no-op on the store -/

theorem any_post_id_map (l : List Post) (pid0 : String) (m : Metrics) (sid : String) :
    ((l.map (updOne pid0 m)).any fun q => q.post_id == sid) =
      (l.any fun q => q.post_id == sid) := by
  rw [List.any_map]
  congr 1
  funext q
  simp only [Function.comp_apply, updOne_post_id]

theorem processParsed_idem (posts : List Post) (pid pt title ptype : String)
    (m : Metrics) (now1 now2 : String)
    (h5 : ∀ p : Post, resolveMatch posts pid pt title ≠ some (p, 5)) :
    (processParsed (processParsed posts pid pt title ptype m now1).1
      pid pt title ptype m now2).1 = (processParsed posts pid pt title ptype m now1).1 := by
  cases e1 : matchByMinute posts pid (strTake pt 16) with
  | some p1 =>
    have hr : resolveMatch posts pid pt title = some (p1, 1) := by
      unfold resolveMatch; rw [e1]
    have hfirst : processParsed posts pid pt title ptype m now1 =
        (updateWhere posts p1.post_id m, false) := by
      unfold processParsed; rw [hr]
    have hr2 : resolveMatch (updateWhere posts p1.post_id m) pid pt title =
        some (updOne p1.post_id m p1, 1) := by
      unfold resolveMatch updateWhere
      rw [matchByMinute_map_upd, e1]
      rfl
    have hsecond : processParsed (updateWhere posts p1.post_id m) pid pt title ptype m now2 =
        (updateWhere (updateWhere posts p1.post_id m) p1.post_id m, false) := by
      unfold processParsed
      rw [hr2]
      show (updateWhere (updateWhere posts p1.post_id m)
        (updOne p1.post_id m p1).post_id m, false) = _
      rw [updOne_post_id]
    rw [hfirst, hsecond]
    exact updateWhere_idem posts p1.post_id m
  | none =>
  cases e2 : matchFuzzy posts pid pt with
  | some p2 =>
    have hr : resolveMatch posts pid pt title = some (p2, 2) := by
      unfold resolveMatch; rw [e1, e2]
    have hfirst : processParsed posts pid pt title ptype m now1 =
        (updateWhere posts p2.post_id m, false) := by
      unfold processParsed; rw [hr]
    have hr2 : resolveMatch (updateWhere posts p2.post_id m) pid pt title =
        some (updOne p2.post_id m p2, 2) := by
      unfold resolveMatch updateWhere
      rw [matchByMinute_map_upd, e1, matchFuzzy_map_upd, e2]
      rfl
    have hsecond : processParsed (updateWhere posts p2.post_id m) pid pt title ptype m now2 =
        (updateWhere (updateWhere posts p2.post_id m) p2.post_id m, false) := by
      unfold processParsed
      rw [hr2]
      show (updateWhere (updateWhere posts p2.post_id m)
        (updOne p2.post_id m p2).post_id m, false) = _
      rw [updOne_post_id]
    rw [hfirst, hsecond]
    exact updateWhere_idem posts p2.post_id m
  | none =>
  cases e3 : matchTitleSameDate posts pid pt title with
  | some p3 =>
    have hr : resolveMatch posts pid pt title = some (p3, 3) := by
      unfold resolveMatch; rw [e1, e2, e3]
    have hfirst : processParsed posts pid pt title ptype m now1 =
        (updateWhere posts p3.post_id m, false) := by
      unfold processParsed; rw [hr]
    have hr2 : resolveMatch (updateWhere posts p3.post_id m) pid pt title =
        some (updOne p3.post_id m p3, 3) := by
      unfold resolveMatch updateWhere
      rw [matchByMinute_map_upd, e1, matchFuzzy_map_upd, e2,
        matchTitleSameDate_map_upd, e3]
      rfl
    have hsecond : processParsed (updateWhere posts p3.post_id m) pid pt title ptype m now2 =
        (updateWhere (updateWhere posts p3.post_id m) p3.post_id m, false) := by
      unfold processParsed
      rw [hr2]
      show (updateWhere (updateWhere posts p3.post_id m)
        (updOne p3.post_id m p3).post_id m, false) = _
      rw [updOne_post_id]
    rw [hfirst, hsecond]
    exact updateWhere_idem posts p3.post_id m
  | none =>
  cases e4 : matchTitleAnyDate posts pid title with
  | some p4 =>
    have hr : resolveMatch posts pid pt title = some (p4, 4) := by
      unfold resolveMatch; rw [e1, e2, e3, e4]
    have hfirst : processParsed posts pid pt title ptype m now1 =
        (updateWhere posts p4.post_id m, false) := by
      unfold processParsed; rw [hr]
    have hr2 : resolveMatch (updateWhere posts p4.post_id m) pid pt title =
        some (updOne p4.post_id m p4, 4) := by
      unfold resolveMatch updateWhere
      rw [matchByMinute_map_upd, e1, matchFuzzy_map_upd, e2,
        matchTitleSameDate_map_upd, e3, matchTitleAnyDate_map_upd, e4]
      rfl
    have hsecond : processParsed (updateWhere posts p4.post_id m) pid pt title ptype m now2 =
        (updateWhere (updateWhere posts p4.post_id m) p4.post_id m, false) := by
      unfold processParsed
      rw [hr2]
      show (updateWhere (updateWhere posts p4.post_id m)
        (updOne p4.post_id m p4).post_id m, false) = _
      rw [updOne_post_id]
    rw [hfirst, hsecond]
    exact updateWhere_idem posts p4.post_id m
  | none =>
  cases e5 : matchClosest posts pid pt with
  | some p5 =>
    exact absurd (by unfold resolveMatch; rw [e1, e2, e3, e4, e5]) (h5 p5)
  | none =>
  have hr : resolveMatch posts pid pt title = none := by
    unfold resolveMatch; rw [e1, e2, e3, e4, e5]
  cases hex : (posts.any fun q => q.post_id == synthesize pid pt) with
  | true =>
    have hfirst : processParsed posts pid pt title ptype m now1 =
        (updateWhere posts (synthesize pid pt) m, false) := by
      unfold processParsed
      rw [hr]
      simp only [hex, if_true]
    have hr2 : resolveMatch (updateWhere posts (synthesize pid pt) m) pid pt title = none :=
      resolveMatch_map_upd_none posts (synthesize pid pt) m pid pt title hr
    have hsecond : processParsed (updateWhere posts (synthesize pid pt) m)
        pid pt title ptype m now2 =
        (updateWhere (updateWhere posts (synthesize pid pt) m) (synthesize pid pt) m,
          false) := by
      unfold processParsed
      rw [hr2]
      simp only []
      rw [show ((updateWhere posts (synthesize pid pt) m).any
          fun q => q.post_id == synthesize pid pt) = true from
        (any_post_id_map posts (synthesize pid pt) m (synthesize pid pt)).trans hex]
      simp only [if_true]
    rw [hfirst, hsecond]
    exact updateWhere_idem posts (synthesize pid pt) m
  | false =>
    have hfirst : processParsed posts pid pt title ptype m now1 =
        (posts ++ [newPostFromCsv pid pt title ptype m now1], true) := by
      unfold processParsed
      rw [hr]
      simp only [hex, Bool.false_eq_true, if_false]
    have hnp : ∀ q ∈ posts,
        (q.post_id == (newPostFromCsv pid pt title ptype m now1).post_id) = false := by
      intro q hq
      exact Bool.eq_false_iff.mpr (List.any_eq_false.mp hex q hq)
    have hfresh : updateWhere (posts ++ [newPostFromCsv pid pt title ptype m now1])
        (newPostFromCsv pid pt title ptype m now1).post_id m =
        posts ++ [newPostFromCsv pid pt title ptype m now1] :=
      updateWhere_append_fresh posts _ m hnp (mergeUpdate_newPost pid pt title ptype m now1)
    have hexist : ((posts ++ [newPostFromCsv pid pt title ptype m now1]).any
        fun q => q.post_id == synthesize pid pt) = true := by
      rw [List.any_append]
      simp only [List.any_cons, List.any_nil, Bool.or_false]
      rw [show ((newPostFromCsv pid pt title ptype m now1).post_id ==
        synthesize pid pt) = true from beq_self_eq_true _]
      exact Bool.or_true _
    rcases resolveMatch_append_or posts (newPostFromCsv pid pt title ptype m now1)
        pid pt title hr hnp with hA | ⟨k, hA⟩
    · have hsecond : processParsed (posts ++ [newPostFromCsv pid pt title ptype m now1])
          pid pt title ptype m now2 =
          (updateWhere (posts ++ [newPostFromCsv pid pt title ptype m now1])
            (synthesize pid pt) m, false) := by
        unfold processParsed
        rw [hA]
        simp only []
        rw [hexist]
        simp only [if_true]
      rw [hfirst, hsecond]
      exact hfresh
    · have hsecond : processParsed (posts ++ [newPostFromCsv pid pt title ptype m now1])
          pid pt title ptype m now2 =
          (updateWhere (posts ++ [newPostFromCsv pid pt title ptype m now1])
            (newPostFromCsv pid pt title ptype m now1).post_id m, false) := by
        unfold processParsed
        rw [hA]
      rw [hfirst, hsecond]
      exact hfresh

theorem importRowStep_eq (now : String) (s : Store) (c : Counters) (row : CsvRow) :
    importRowStep now (s, c) row =
      match normalizeRow s.pages row with
      | none => (s, { c with skipped := c.skipped + 1 })
      | some nr =>
        ({ s with
            posts := (processParsed s.posts nr.pid nr.pt nr.title nr.ptypeN nr.m now).1 },
         if (processParsed s.posts nr.pid nr.pt nr.title nr.ptypeN nr.m now).2 then
           { c with created := c.created + 1 }
         else { c with updated := c.updated + 1 }) := rfl

/-- **C2 (amended)** Importing a batch consisting of one record a second
time, starting from the store the first import produced, changes nothing:
zero new canonical posts and no metric change — *provided* the record's
resolution against the original store is not a hit of the views-gated
closest-time fallback (tier 5).  Without that proviso the property fails
(see the accompanying counterexample): the first run's metric write can
push the matched post out of the fallback's candidate set. -/
theorem reimport_single_record_noop (s : Store) (row : CsvRow) (now1 now2 : String)
    (h : ∀ nr : NormRow, ∀ p : Post, normalizeRow s.pages row = some nr →
      resolveMatch s.posts nr.pid nr.pt nr.title ≠ some (p, 5)) :
    (import_csv (import_csv s [row] now1).1 [row] now2).1 = (import_csv s [row] now1).1 := by
  show (importRowStep now2 ((importRowStep now1 (s, ⟨0, 0, 0⟩) row).1, ⟨0, 0, 0⟩) row).1 =
    (importRowStep now1 (s, ⟨0, 0, 0⟩) row).1
  cases hn : normalizeRow s.pages row with
  | none =>
    have h1 : importRowStep now1 (s, (⟨0, 0, 0⟩ : Counters)) row = (s, ⟨0, 0, 1⟩) := by
      rw [importRowStep_eq, hn]
    have h2 : importRowStep now2 (s, (⟨0, 0, 0⟩ : Counters)) row = (s, ⟨0, 0, 1⟩) := by
      rw [importRowStep_eq, hn]
    rw [h1]
    show (importRowStep now2 (s, ⟨0, 0, 0⟩) row).1 = s
    rw [h2]
  | some nr =>
    have hstore : (importRowStep now1 (s, (⟨0, 0, 0⟩ : Counters)) row).1 =
        { s with
          posts := (processParsed s.posts nr.pid nr.pt nr.title nr.ptypeN nr.m now1).1 } := by
      rw [importRowStep_eq, hn]
    have hstoreG : ∀ (posts2 : List Post) (now : String) (c : Counters),
        (importRowStep now ({ s with posts := posts2 }, c) row).1 =
        { s with
          posts := (processParsed posts2 nr.pid nr.pt nr.title nr.ptypeN nr.m now).1 } := by
      intro posts2 now c
      have hn2 : normalizeRow ({ s with posts := posts2 } : Store).pages row = some nr := hn
      rw [importRowStep_eq, hn2]
    rw [hstore]
    rw [hstoreG _ now2 ⟨0, 0, 0⟩]
    rw [processParsed_idem s.posts nr.pid nr.pt nr.title nr.ptypeN nr.m now1 now2
      (fun p => h nr p hn)]

set_option maxRecDepth 400000 in
/-- Witness for C2 (amended): re-importing a record that *created* a
synthetic post on its first run (tier 5 is not involved) leaves the store
unchanged. -/
theorem reimport_single_record_noop_witness :
    (import_csv (import_csv emptyStore [row11] "n1").1 [row11] "n2").1 =
      (import_csv emptyStore [row11] "n1").1 :=
  reimport_single_record_noop emptyStore row11 "n1" "n2" (by
    intro nr p hnr
    have he : normalizeRow emptyStore.pages row11 = some nr := hnr
    have : resolveMatch emptyStore.posts nr.pid nr.pt nr.title = none := by
      cases Option.some.inj he
      decide
    simp [this])

end Juanababes
